import Mathlib

/-!
Verification of the CGM (conditional generative model) repository:
the energy-score loss `energy_score`, the `cgm` constructor's configuration
handling, the multi-pass `predict` aggregation, and the "ws" network's
softplus output constraint.

The tensor code is embedded shallowly over `ℝ`:
a tensor of shape `(batch, D, N)` becomes a function `Fin batch → Fin D → Fin N → ℝ`,
`tf.sqrt` becomes `Real.sqrt`, and `tf.clip_by_value` becomes `min (max x lo) hi`.
The batch dimension is factored out: every operation of the source acts
independently per batch element, so the per-example function is defined first
and the batched tensor is its pointwise extension.
-/

/-! ## Energy score (source: `energy_score`, cgm_models.py lines 20-46) -/

/-- Value of `K.epsilon()`, the Keras backend fuzz factor, `1e-07`. -/
noncomputable def kEpsilon : ℝ := 1e-7

/-- The upper clip value `1e10` used in `tf.clip_by_value(..., K.epsilon(), 1e10)`. -/
noncomputable def clipHi : ℝ := 1e10

/-- Embedding of `tf.clip_by_value(x, lo, hi) = min(max(x, lo), hi)`. -/
noncomputable def clip_by_value (x lo hi : ℝ) : ℝ := min (max x lo) hi

/-- Composite `tf.sqrt(tf.clip_by_value(x, K.epsilon(), 1e10))`: every radicand in
`energy_score` passes through this. -/
noncomputable def sqrtClip (x : ℝ) : ℝ := Real.sqrt (clip_by_value x kEpsilon clipHi)

/-- Product `tf.matmul(y_true, y_true, transpose_a=True)` for one batch element:
the `(1,1)` entry `Σ_d t_d * t_d`. -/
noncomputable def tDot {D : ℕ} (t : Fin D → ℝ) : ℝ := ∑ d, t d * t d

/-- Term `tf.square(tf.linalg.norm(y_pred, axis=1))` for one batch element and
sample `i`: the Euclidean norm over the `D` axis, then squared. -/
noncomputable def predNormSq {D N : ℕ} (p : Fin D → Fin N → ℝ) (i : Fin N) : ℝ :=
  Real.sqrt (∑ d, p d i ^ 2) ^ 2

/-- Radicand of the true-to-sample term `es_12` for sample `i`:
`y_true·y_true + ‖y_pred_i‖² - 2 y_true·y_pred_i`. -/
noncomputable def es12rad {D N : ℕ} (t : Fin D → ℝ) (p : Fin D → Fin N → ℝ) (i : Fin N) : ℝ :=
  tDot t + predNormSq p i - 2 * ∑ d, t d * p d i

/-- Term `es_12` of the source: sum over the sample axis of the clipped square roots. -/
noncomputable def es12 {D N : ℕ} (t : Fin D → ℝ) (p : Fin D → Fin N → ℝ) : ℝ :=
  ∑ i, sqrtClip (es12rad t p i)

/-- Gram matrix `G = tf.linalg.matmul(y_pred, y_pred, transpose_a=True)`:
`G i j = Σ_d p_{d,i} p_{d,j}`. -/
noncomputable def gram {D N : ℕ} (p : Fin D → Fin N → ℝ) (i j : Fin N) : ℝ :=
  ∑ d, p d i * p d j

/-- Radicand of the pairwise term `es_22` at `(i,j)`: `d_i + d_j - 2 G_ij`
with `d` the diagonal of the Gram matrix. -/
noncomputable def es22rad {D N : ℕ} (p : Fin D → Fin N → ℝ) (i j : Fin N) : ℝ :=
  gram p i i + gram p j j - 2 * gram p i j

/-- Term `es_22` of the source: double sum (diagonal included) of clipped roots. -/
noncomputable def es22 {D N : ℕ} (p : Fin D → Fin N → ℝ) : ℝ :=
  ∑ i, ∑ j, sqrtClip (es22rad p i j)

/-- The denominator `2 * n_samples_model * (n_samples_model - 1)` of the
second term of the loss. -/
noncomputable def esDenom (n : ℝ) : ℝ := 2 * n * (n - 1)

/-- Function `energy_score` for one batch element:
`loss = es_12/N - es_22/(2 N (N-1))` with `N = tf.shape(y_pred)[2]` cast to float. -/
noncomputable def energy_score {D N : ℕ} (t : Fin D → ℝ) (p : Fin D → Fin N → ℝ) : ℝ :=
  es12 t p / (N : ℝ) - es22 p / esDenom (N : ℝ)

/-- The full batched `energy_score`: input shapes `(B, D, 1)` and `(B, D, N)`,
output shape `(B,)`; every reduction of the source is over axes `(1,2)`,
so the result is the per-example score applied pointwise over the batch. -/
noncomputable def energy_score_batched (B D N : ℕ) (t : Fin B → Fin D → ℝ)
    (p : Fin B → Fin D → Fin N → ℝ) : Fin B → ℝ :=
  fun b => energy_score (t b) (p b)

/-! ## Spec-side formulas (from the specification text, for comparison) -/

/-- Squared Euclidean distance `‖a - b‖²` over the `D` output dimensions. -/
noncomputable def spec_dist_sq {D : ℕ} (a b : Fin D → ℝ) : ℝ := ∑ d, (a d - b d) ^ 2

/-- The claimed formula of C1 taken literally: the energy score with the
radicand of every square root clipped *below* to epsilon only (no upper clip). -/
noncomputable def energy_score_spec_lower {D N : ℕ} (t : Fin D → ℝ)
    (p : Fin D → Fin N → ℝ) : ℝ :=
  (1 / (N : ℝ)) * ∑ i, Real.sqrt (max (spec_dist_sq t (fun d => p d i)) kEpsilon)
    - (1 / (2 * (N : ℝ) * ((N : ℝ) - 1)))
      * ∑ i, ∑ j, Real.sqrt (max (spec_dist_sq (fun d => p d i) (fun d => p d j)) kEpsilon)

/-- The amended formula: the energy score with the radicand of every square
root clipped below to epsilon and above to `1e10`. -/
noncomputable def energy_score_spec_clipped {D N : ℕ} (t : Fin D → ℝ)
    (p : Fin D → Fin N → ℝ) : ℝ :=
  (1 / (N : ℝ)) * ∑ i, sqrtClip (spec_dist_sq t (fun d => p d i))
    - (1 / (2 * (N : ℝ) * ((N : ℝ) - 1)))
      * ∑ i, ∑ j, sqrtClip (spec_dist_sq (fun d => p d i) (fun d => p d j))

/-- The unclipped energy-score formula
`(1/N) Σᵢ ‖y_true - yᵢ‖ - 1/(2N(N-1)) Σᵢ Σⱼ ‖yᵢ - yⱼ‖` (no clips at all). -/
noncomputable def energy_score_unclipped {D N : ℕ} (t : Fin D → ℝ)
    (p : Fin D → Fin N → ℝ) : ℝ :=
  (1 / (N : ℝ)) * ∑ i, Real.sqrt (spec_dist_sq t (fun d => p d i))
    - (1 / (2 * (N : ℝ) * ((N : ℝ) - 1)))
      * ∑ i, ∑ j, Real.sqrt (spec_dist_sq (fun d => p d i) (fun d => p d j))

/-! ## Basic lemmas about the clipped square root -/

lemma kEpsilon_pos : 0 < kEpsilon := by norm_num [kEpsilon]

lemma kEpsilon_le_clipHi : kEpsilon ≤ clipHi := by norm_num [kEpsilon, clipHi]

lemma sqrt_kEpsilon_pos : 0 < Real.sqrt kEpsilon := Real.sqrt_pos.mpr kEpsilon_pos

lemma sqrt_kEpsilon_lt_one : Real.sqrt kEpsilon < 1 := by
  have h := Real.sqrt_lt_sqrt (le_of_lt kEpsilon_pos) (by norm_num [kEpsilon] : kEpsilon < 1)
  simpa [Real.sqrt_one] using h

lemma sqrtClip_nonneg (x : ℝ) : 0 ≤ sqrtClip x := Real.sqrt_nonneg _

lemma clip_lower_le (x : ℝ) : kEpsilon ≤ clip_by_value x kEpsilon clipHi :=
  le_min (le_max_right x kEpsilon) kEpsilon_le_clipHi

lemma sqrt_kEpsilon_le_sqrtClip (x : ℝ) : Real.sqrt kEpsilon ≤ sqrtClip x :=
  Real.sqrt_le_sqrt (clip_lower_le x)

lemma sqrtClip_of_mem {x : ℝ} (h1 : kEpsilon ≤ x) (h2 : x ≤ clipHi) :
    sqrtClip x = Real.sqrt x := by
  unfold sqrtClip clip_by_value
  rw [max_eq_left h1, min_eq_left h2]

lemma sqrtClip_of_small {x : ℝ} (h : x ≤ kEpsilon) : sqrtClip x = Real.sqrt kEpsilon := by
  unfold sqrtClip clip_by_value
  rw [max_eq_right h, min_eq_left kEpsilon_le_clipHi]

lemma sqrtClip_zero : sqrtClip 0 = Real.sqrt kEpsilon :=
  sqrtClip_of_small (le_of_lt kEpsilon_pos)

lemma sqrtClip_of_big {x : ℝ} (h : clipHi ≤ x) : sqrtClip x = Real.sqrt clipHi := by
  unfold sqrtClip clip_by_value
  rw [max_eq_left (le_trans kEpsilon_le_clipHi h), min_eq_right h]

lemma sqrt_clipHi_eq : Real.sqrt clipHi = 100000 := by
  rw [clipHi, show (1e10 : ℝ) = 100000 ^ 2 by norm_num, Real.sqrt_sq (by norm_num)]

lemma sqrt_le_sqrtClip {x : ℝ} (h : x ≤ clipHi) : Real.sqrt x ≤ sqrtClip x := by
  apply Real.sqrt_le_sqrt
  exact le_min (le_max_left x kEpsilon) h

lemma sqrtClip_le_sqrt_clipHi (x : ℝ) : sqrtClip x ≤ Real.sqrt clipHi :=
  Real.sqrt_le_sqrt (min_le_right _ _)

/-! ## Bridging the Gram-matrix radicands to squared distances -/

lemma predNormSq_eq {D N : ℕ} (p : Fin D → Fin N → ℝ) (i : Fin N) :
    predNormSq p i = ∑ d, p d i ^ 2 :=
  Real.sq_sqrt (Finset.sum_nonneg fun d _ => sq_nonneg (p d i))

lemma es12rad_eq {D N : ℕ} (t : Fin D → ℝ) (p : Fin D → Fin N → ℝ) (i : Fin N) :
    es12rad t p i = spec_dist_sq t (fun d => p d i) := by
  unfold es12rad spec_dist_sq tDot
  rw [predNormSq_eq, Finset.mul_sum, ← Finset.sum_add_distrib, ← Finset.sum_sub_distrib]
  exact Finset.sum_congr rfl fun d _ => by ring

lemma es22rad_eq {D N : ℕ} (p : Fin D → Fin N → ℝ) (i j : Fin N) :
    es22rad p i j = spec_dist_sq (fun d => p d i) (fun d => p d j) := by
  unfold es22rad spec_dist_sq gram
  rw [Finset.mul_sum, ← Finset.sum_add_distrib, ← Finset.sum_sub_distrib]
  exact Finset.sum_congr rfl fun d _ => by ring

lemma es22rad_self {D N : ℕ} (p : Fin D → Fin N → ℝ) (i : Fin N) :
    es22rad p i i = 0 := by
  unfold es22rad; ring

/-! ## Triangle inequality for the clipped Euclidean distances -/

lemma sqrt_triangle_sum {D : ℕ} (x y : Fin D → ℝ) :
    Real.sqrt (∑ d, (x d + y d) ^ 2) ≤
      Real.sqrt (∑ d, x d ^ 2) + Real.sqrt (∑ d, y d ^ 2) := by
  set X := ∑ d, x d ^ 2 with hXdef
  set Y := ∑ d, y d ^ 2 with hYdef
  set Z := ∑ d, x d * y d with hZdef
  have hX0 : 0 ≤ X := Finset.sum_nonneg fun d _ => sq_nonneg (x d)
  have hY0 : 0 ≤ Y := Finset.sum_nonneg fun d _ => sq_nonneg (y d)
  have hcs : Z ^ 2 ≤ X * Y := Finset.sum_mul_sq_le_sq_mul_sq Finset.univ x y
  have hZle : Z ≤ Real.sqrt X * Real.sqrt Y := by
    have h1 : Z ≤ |Z| := le_abs_self Z
    have h2 : |Z| = Real.sqrt (Z ^ 2) := (Real.sqrt_sq_eq_abs Z).symm
    have h3 : Real.sqrt (Z ^ 2) ≤ Real.sqrt (X * Y) := Real.sqrt_le_sqrt hcs
    rw [Real.sqrt_mul hX0] at h3
    linarith
  have hsx : Real.sqrt X ^ 2 = X := Real.sq_sqrt hX0
  have hsy : Real.sqrt Y ^ 2 = Y := Real.sq_sqrt hY0
  have hexp : (∑ d, (x d + y d) ^ 2) = X + 2 * Z + Y := by
    rw [hXdef, hYdef, hZdef, Finset.mul_sum, ← Finset.sum_add_distrib, ← Finset.sum_add_distrib]
    exact Finset.sum_congr rfl fun d _ => by ring
  have hbound : (∑ d, (x d + y d) ^ 2) ≤ (Real.sqrt X + Real.sqrt Y) ^ 2 := by
    have h4 : (Real.sqrt X + Real.sqrt Y) ^ 2
        = X + 2 * (Real.sqrt X * Real.sqrt Y) + Y := by
      rw [add_sq, hsx, hsy]; ring
    rw [hexp, h4]
    linarith
  calc Real.sqrt (∑ d, (x d + y d) ^ 2)
      ≤ Real.sqrt ((Real.sqrt X + Real.sqrt Y) ^ 2) := Real.sqrt_le_sqrt hbound
    _ = Real.sqrt X + Real.sqrt Y :=
        Real.sqrt_sq (by positivity)

lemma spec_dist_triangle {D : ℕ} (t a b : Fin D → ℝ) :
    Real.sqrt (spec_dist_sq a b) ≤
      Real.sqrt (spec_dist_sq t a) + Real.sqrt (spec_dist_sq t b) := by
  have h := sqrt_triangle_sum (fun d => a d - t d) (fun d => t d - b d)
  unfold spec_dist_sq
  have e1 : (∑ d, (a d - b d) ^ 2) = ∑ d, ((a d - t d) + (t d - b d)) ^ 2 :=
    Finset.sum_congr rfl fun d _ => by ring
  have e2 : (∑ d, (t d - a d) ^ 2) = ∑ d, (a d - t d) ^ 2 :=
    Finset.sum_congr rfl fun d _ => by ring
  rw [e1, e2]
  exact h

/-- The clipped square root respects the triangle inequality on radicands:
if `√C ≤ √A + √B` then `sqrtClip C ≤ sqrtClip A + sqrtClip B`. -/
lemma sqrtClip_triangle {A B C : ℝ} (h : Real.sqrt C ≤ Real.sqrt A + Real.sqrt B) :
    sqrtClip C ≤ sqrtClip A + sqrtClip B := by
  rcases le_or_lt C clipHi with hC | hC
  · rcases le_or_lt C kEpsilon with hCe | hCe
    · rw [sqrtClip_of_small hCe]
      have h1 := sqrt_kEpsilon_le_sqrtClip A
      have h2 := sqrtClip_nonneg B
      linarith
    · rw [sqrtClip_of_mem (le_of_lt hCe) hC]
      rcases le_or_lt A clipHi with hA | hA
      · rcases le_or_lt B clipHi with hB | hB
        · have h1 := sqrt_le_sqrtClip hA
          have h2 := sqrt_le_sqrtClip hB
          linarith
        · have h1 : Real.sqrt C ≤ sqrtClip B := by
            rw [sqrtClip_of_big (le_of_lt hB)]
            exact Real.sqrt_le_sqrt hC
          have h2 := sqrtClip_nonneg A
          linarith
      · have h1 : Real.sqrt C ≤ sqrtClip A := by
          rw [sqrtClip_of_big (le_of_lt hA)]
          exact Real.sqrt_le_sqrt hC
        have h2 := sqrtClip_nonneg B
        linarith
  · rw [sqrtClip_of_big (le_of_lt hC)]
    rcases le_or_lt A clipHi with hA | hA
    · rcases le_or_lt B clipHi with hB | hB
      · have h1 : Real.sqrt clipHi ≤ Real.sqrt C := Real.sqrt_le_sqrt (le_of_lt hC)
        have h2 := sqrt_le_sqrtClip hA
        have h3 := sqrt_le_sqrtClip hB
        linarith
      · rw [sqrtClip_of_big (le_of_lt hB)]
        have h2 := sqrtClip_nonneg A
        linarith
    · rw [sqrtClip_of_big (le_of_lt hA)]
      have h2 := sqrtClip_nonneg B
      linarith

/-! ## The pairwise sum is controlled by the true-to-sample sum -/

lemma sqrtClip_es22rad_le {D N : ℕ} (t : Fin D → ℝ) (p : Fin D → Fin N → ℝ) (i j : Fin N) :
    sqrtClip (es22rad p i j) ≤ sqrtClip (es12rad t p i) + sqrtClip (es12rad t p j) := by
  apply sqrtClip_triangle
  rw [es22rad_eq, es12rad_eq, es12rad_eq]
  exact spec_dist_triangle t (fun d => p d i) (fun d => p d j)

lemma es22_le {D N : ℕ} (t : Fin D → ℝ) (p : Fin D → Fin N → ℝ) :
    es22 p ≤ (N : ℝ) * Real.sqrt kEpsilon + 2 * ((N : ℝ) - 1) * es12 t p := by
  have hrow : ∀ i : Fin N, (∑ j, sqrtClip (es22rad p i j)) ≤
      Real.sqrt kEpsilon + ((N : ℝ) - 1) * sqrtClip (es12rad t p i)
        + (es12 t p - sqrtClip (es12rad t p i)) := by
    intro i
    have hsplit : (∑ j, sqrtClip (es22rad p i j)) =
        (∑ j ∈ Finset.univ.erase i, sqrtClip (es22rad p i j)) + sqrtClip (es22rad p i i) :=
      (Finset.sum_erase_add Finset.univ _ (Finset.mem_univ i)).symm
    have hdiag : sqrtClip (es22rad p i i) = Real.sqrt kEpsilon := by
      rw [es22rad_self, sqrtClip_zero]
    have hoff : (∑ j ∈ Finset.univ.erase i, sqrtClip (es22rad p i j)) ≤
        ∑ j ∈ Finset.univ.erase i,
          (sqrtClip (es12rad t p i) + sqrtClip (es12rad t p j)) :=
      Finset.sum_le_sum fun j _ => sqrtClip_es22rad_le t p i j
    have hsumsplit : (∑ j ∈ Finset.univ.erase i,
        (sqrtClip (es12rad t p i) + sqrtClip (es12rad t p j))) =
        ((N : ℝ) - 1) * sqrtClip (es12rad t p i)
          + (es12 t p - sqrtClip (es12rad t p i)) := by
      rw [Finset.sum_add_distrib, Finset.sum_const,
        Finset.card_erase_of_mem (Finset.mem_univ i), Finset.card_univ, Fintype.card_fin,
        Finset.sum_erase_eq_sub (Finset.mem_univ i), nsmul_eq_mul]
      have hN1 : 0 < N := i.pos
      have : ((N - 1 : ℕ) : ℝ) = (N : ℝ) - 1 := by
        rw [Nat.cast_sub (by omega)]; norm_num
      rw [this]
      rfl
    rw [hsplit, hdiag]
    calc (∑ j ∈ Finset.univ.erase i, sqrtClip (es22rad p i j)) + Real.sqrt kEpsilon
        ≤ (∑ j ∈ Finset.univ.erase i,
            (sqrtClip (es12rad t p i) + sqrtClip (es12rad t p j))) + Real.sqrt kEpsilon := by
          linarith
      _ = Real.sqrt kEpsilon + ((N : ℝ) - 1) * sqrtClip (es12rad t p i)
            + (es12 t p - sqrtClip (es12rad t p i)) := by rw [hsumsplit]; ring
  have hsum : es22 p ≤ ∑ i : Fin N, (Real.sqrt kEpsilon
      + ((N : ℝ) - 1) * sqrtClip (es12rad t p i)
      + (es12 t p - sqrtClip (es12rad t p i))) :=
    Finset.sum_le_sum fun i _ => hrow i
  have hval : (∑ i : Fin N, (Real.sqrt kEpsilon
      + ((N : ℝ) - 1) * sqrtClip (es12rad t p i)
      + (es12 t p - sqrtClip (es12rad t p i)))) =
      (N : ℝ) * Real.sqrt kEpsilon + 2 * ((N : ℝ) - 1) * es12 t p := by
    rw [Finset.sum_add_distrib, Finset.sum_add_distrib, Finset.sum_const,
      Finset.card_univ, Fintype.card_fin, nsmul_eq_mul, Finset.sum_sub_distrib,
      Finset.sum_const, Finset.card_univ, Fintype.card_fin, nsmul_eq_mul,
      ← Finset.mul_sum]
    unfold es12
    ring
  calc es22 p ≤ _ := hsum
    _ = _ := hval

/-! ## Closed form for N = 2 -/

lemma gram_symm {D N : ℕ} (p : Fin D → Fin N → ℝ) (i j : Fin N) :
    gram p i j = gram p j i :=
  Finset.sum_congr rfl fun d _ => mul_comm (p d i) (p d j)

lemma es22rad_symm {D N : ℕ} (p : Fin D → Fin N → ℝ) (i j : Fin N) :
    es22rad p i j = es22rad p j i := by
  unfold es22rad
  rw [gram_symm p i j]
  ring

/-- Exact value of `energy_score` for two predictive samples `a = p · 0` and
`b = p · 1`: the clipped two-sample formula minus the `√ε/2` diagonal artifact. -/
lemma energy_score_two {D : ℕ} (t : Fin D → ℝ) (p : Fin D → Fin 2 → ℝ) :
    energy_score t p =
      (sqrtClip (spec_dist_sq t (fun d => p d 0))
        + sqrtClip (spec_dist_sq t (fun d => p d 1))) / 2
      - sqrtClip (spec_dist_sq (fun d => p d 0) (fun d => p d 1)) / 2
      - Real.sqrt kEpsilon / 2 := by
  unfold energy_score es12 es22 esDenom
  rw [Fin.sum_univ_two]
  rw [show (∑ i : Fin 2, ∑ j, sqrtClip (es22rad p i j)) =
      (sqrtClip (es22rad p 0 0) + sqrtClip (es22rad p 0 1))
        + (sqrtClip (es22rad p 1 0) + sqrtClip (es22rad p 1 1)) by
    rw [Fin.sum_univ_two, Fin.sum_univ_two, Fin.sum_univ_two]]
  rw [es22rad_self, es22rad_self, sqrtClip_zero, es22rad_symm p 1 0]
  rw [es12rad_eq, es12rad_eq, es22rad_eq]
  push_cast
  ring

/-! ## Numerical evaluations of the clipped root -/

lemma sqrtClip_one : sqrtClip 1 = 1 := by
  rw [sqrtClip_of_mem (by norm_num [kEpsilon]) (by norm_num [clipHi]), Real.sqrt_one]

lemma sqrtClip_four : sqrtClip 4 = 2 := by
  rw [sqrtClip_of_mem (by norm_num [kEpsilon]) (by norm_num [clipHi]),
    show (4 : ℝ) = 2 ^ 2 by norm_num, Real.sqrt_sq (by norm_num)]

lemma sqrtClip_nine : sqrtClip 9 = 3 := by
  rw [sqrtClip_of_mem (by norm_num [kEpsilon]) (by norm_num [clipHi]),
    show (9 : ℝ) = 3 ^ 2 by norm_num, Real.sqrt_sq (by norm_num)]

lemma sqrtClip_big10 : sqrtClip 10000000000 = 100000 := by
  rw [sqrtClip_of_mem (by norm_num [kEpsilon]) (by norm_num [clipHi]),
    show (10000000000 : ℝ) = 100000 ^ 2 by norm_num, Real.sqrt_sq (by norm_num)]

lemma sqrtClip_big40 : sqrtClip 40000000000 = 100000 := by
  rw [sqrtClip_of_big (by norm_num [clipHi]), sqrt_clipHi_eq]

lemma sqrt_big40 : Real.sqrt 40000000000 = 200000 := by
  rw [show (40000000000 : ℝ) = 200000 ^ 2 by norm_num, Real.sqrt_sq (by norm_num)]

lemma sqrt_big10 : Real.sqrt 10000000000 = 100000 := by
  rw [show (10000000000 : ℝ) = 100000 ^ 2 by norm_num, Real.sqrt_sq (by norm_num)]

/-! ## Concrete evaluations of the energy score -/

/-- D=1, t=0, samples (1,3): the score is `1 - √ε/2`, not the ideal `1`. -/
lemma eval_zero13 : energy_score (D := 1) ![0] ![![1, 3]] = 1 - Real.sqrt kEpsilon / 2 := by
  rw [energy_score_two]
  norm_num [spec_dist_sq, Fin.sum_univ_one]
  rw [sqrtClip_one, sqrtClip_nine, sqrtClip_four]
  ring

/-- D=1, t=2, samples (1,3): the unclipped score is exactly 0, so the clamp
artifact makes the returned score negative: `-√ε/2`. -/
lemma eval_two13 : energy_score (D := 1) ![2] ![![1, 3]] = -(Real.sqrt kEpsilon) / 2 := by
  rw [energy_score_two]
  norm_num [spec_dist_sq, Fin.sum_univ_one]
  rw [sqrtClip_one, sqrtClip_four]
  ring

/-- D=1, t=0, both samples 200000: both true-to-sample radicands are `4e10`,
above the upper clip. -/
lemma eval_big_code :
    energy_score (D := 1) ![0] ![![200000, 200000]] = 100000 - Real.sqrt kEpsilon := by
  rw [energy_score_two]
  norm_num [spec_dist_sq, Fin.sum_univ_one]
  rw [sqrtClip_big40, sqrtClip_zero]
  ring

/-- Same input evaluated with the lower-clip-only formula of claim C1. -/
lemma eval_big_spec :
    energy_score_spec_lower (D := 1) ![0] ![![200000, 200000]]
      = 200000 - Real.sqrt kEpsilon := by
  unfold energy_score_spec_lower
  norm_num [spec_dist_sq, Fin.sum_univ_one, Fin.sum_univ_two]
  rw [max_eq_left (by norm_num [kEpsilon] : kEpsilon ≤ (40000000000 : ℝ)),
    max_eq_right (le_of_lt kEpsilon_pos), sqrt_big40]
  ring

/-- D=1, t=100000, samples (0, 200000): the pairwise radicand `4e10` is clipped
down to `1e10`. -/
lemma eval_mid_code :
    energy_score (D := 1) ![100000] ![![0, 200000]]
      = 50000 - Real.sqrt kEpsilon / 2 := by
  rw [energy_score_two]
  norm_num [spec_dist_sq, Fin.sum_univ_one]
  rw [sqrtClip_big10, sqrtClip_big40]
  ring

/-- Same input under the unclipped energy-score formula: exactly 0. -/
lemma eval_mid_unclipped :
    energy_score_unclipped (D := 1) ![100000] ![![0, 200000]] = 0 := by
  unfold energy_score_unclipped
  norm_num [spec_dist_sq, Fin.sum_univ_one, Fin.sum_univ_two]
  rw [sqrt_big10, sqrt_big40]
  ring

/-- General all-samples-equal evaluation: when every predictive sample equals
`y_true`, every radicand is 0 and the score is `√ε (N-2) / (2 (N-1))`. -/
lemma energy_score_all_equal_aux {D N : ℕ} (hN : 2 ≤ N) (t : Fin D → ℝ) :
    energy_score t (fun d (_ : Fin N) => t d) =
      Real.sqrt kEpsilon * ((N : ℝ) - 2) / (2 * ((N : ℝ) - 1)) := by
  have hrad1 : ∀ i : Fin N, es12rad t (fun d _ => t d) i = 0 := by
    intro i
    rw [es12rad_eq]
    unfold spec_dist_sq
    exact Finset.sum_eq_zero fun d _ => by ring
  have hrad2 : ∀ i j : Fin N, es22rad (fun d (_ : Fin N) => t d) i j = 0 := by
    intro i j
    rw [es22rad_eq]
    unfold spec_dist_sq
    exact Finset.sum_eq_zero fun d _ => by ring
  unfold energy_score es12 es22 esDenom
  have e1 : (∑ i : Fin N, sqrtClip (es12rad t (fun d _ => t d) i))
      = (N : ℝ) * Real.sqrt kEpsilon := by
    rw [Finset.sum_congr rfl fun i _ => by rw [hrad1 i, sqrtClip_zero]]
    rw [Finset.sum_const, Finset.card_univ, Fintype.card_fin, nsmul_eq_mul]
  have e2 : (∑ i : Fin N, ∑ j : Fin N, sqrtClip (es22rad (fun d (_ : Fin N) => t d) i j))
      = (N : ℝ) * ((N : ℝ) * Real.sqrt kEpsilon) := by
    rw [Finset.sum_congr rfl fun i _ => by
      rw [Finset.sum_congr rfl fun j _ => by rw [hrad2 i j, sqrtClip_zero],
        Finset.sum_const, Finset.card_univ, Fintype.card_fin, nsmul_eq_mul]]
    rw [Finset.sum_const, Finset.card_univ, Fintype.card_fin, nsmul_eq_mul]
  rw [e1, e2]
  have hN' : (2 : ℝ) ≤ (N : ℝ) := by exact_mod_cast hN
  have h1 : (N : ℝ) ≠ 0 := by linarith
  have h2 : (N : ℝ) - 1 ≠ 0 := by intro h; nlinarith
  field_simp
  ring

/-! ## `cgm.predict` (source lines 332-354)

`predict` runs `int(np.ceil(n_samples / self._n_samples))` forward passes of
`self.model.predict`, collects the outputs in a list `S`, concatenates along
the sample axis (axis 2) and slices `[:, :, 0:n_samples]`.  The embedding
keeps only the sample axis: one forward pass is a list of per-sample slices
(each slice standing for an `(n_examples, dim_out)` array), concatenation
along axis 2 is list append, and the slice is `List.take`. `pass_output i`
is the (random) output of the `i`-th call to `self.model.predict`. -/

def cgm_predict {α : Type} (pass_output : ℕ → List α) (n_samples n_samples_train : ℕ) :
    List α :=
  (((List.range ((n_samples + n_samples_train - 1) / n_samples_train)).map
    pass_output).flatten).take n_samples

lemma flatten_length_const {α : Type} (m : ℕ) :
    ∀ L : List (List α), (∀ l ∈ L, l.length = m) → L.flatten.length = L.length * m := by
  intro L
  induction L with
  | nil => intro _; simp
  | cons l L ih =>
    intro h
    rw [List.flatten_cons, List.length_append, List.length_cons,
      ih fun x hx => h x (List.mem_cons_of_mem _ hx), h l (List.mem_cons_self _ _)]
    ring

lemma flatten_getD_const {α : Type} (m : ℕ) (hm : 0 < m) (d : α) :
    ∀ (L : List (List α)), (∀ l ∈ L, l.length = m) → ∀ k : ℕ, k < L.length * m →
      L.flatten.getD k d = (L.getD (k / m) []).getD (k % m) d := by
  intro L
  induction L with
  | nil => intro _ k hk; simp at hk
  | cons l L ih =>
    intro h k hk
    have hl : l.length = m := h l (List.mem_cons_self _ _)
    rw [List.flatten_cons]
    rcases Nat.lt_or_ge k m with hkm | hkm
    · rw [List.getD_append l L.flatten d k (by omega),
        Nat.div_eq_of_lt hkm, Nat.mod_eq_of_lt hkm]
      rfl
    · rw [List.getD_append_right l L.flatten d k (by omega), hl,
        Nat.div_eq_sub_div hm hkm, Nat.mod_eq_sub_mod hkm]
      have hk' : k - m < L.length * m := by
        have := hk
        rw [List.length_cons, Nat.succ_mul] at this
        omega
      rw [List.getD_cons_succ]
      exact ih (fun x hx => h x (List.mem_cons_of_mem _ hx)) (k - m) hk'

lemma range_map_getD {α : Type} (P j : ℕ) (f : ℕ → List α) (hj : j < P) :
    ((List.range P).map f).getD j [] = f j := by
  rw [List.getD_eq_getElem?_getD, List.getElem?_map, List.getElem?_range hj]
  rfl

/-! ## `cgm.__init__` (source lines 92-118)

The constructor stores the configuration, resolves default latent-distribution
parameters, selects `_build_model` by `model_type` (with no `else` branch:
an unrecognized `model_type` leaves `_build_model` unassigned, so the call
`self.model = self._build_model()` raises `AttributeError`), and runs the
builder, whose latent-noise selection likewise has no `else` branch (an
unrecognized `latent_dist` leaves the local `epsilon` unassigned, raising
`UnboundLocalError` when the multiply layer is constructed).  Both failures
happen inside `__init__`, modelled as `Except.error`.  No field of the
configuration — in particular `n_samples_train` — is validated. -/

structure CgmState where
  dim_out : ℕ
  dim_in_mean : ℕ
  dim_in_std : ℕ
  dim_in_features : ℕ
  dim_latent : ℕ
  n_samples_train : ℕ
  latent_dist : String
  latent_dist_params : Option (ℚ × ℚ)
deriving DecidableEq, Repr

/-- Resolution of `latent_dist_params` when `None` is passed: `(-1,1)` for
uniform, `(0,1)` for normal; an unrecognized `latent_dist` leaves the
attribute unassigned (modelled as `none`). -/
def resolve_latent_params (latent_dist : String) (params : Option (ℚ × ℚ)) :
    Option (ℚ × ℚ) :=
  match params with
  | none =>
      if latent_dist = "uniform" then some (-1, 1)
      else if latent_dist = "normal" then some (0, 1)
      else none
  | some q => some q

/-- The `if latent_dist == "uniform" ... elif "normal"` dispatch in both model
builders: with any other value the local `epsilon` is never assigned. -/
def latent_dist_known (latent_dist : String) : Bool :=
  latent_dist = "uniform" || latent_dist = "normal"

def cgm_init (dim_out dim_in_mean dim_in_std dim_in_features dim_latent
    n_samples_train : ℕ) (model_type latent_dist : String)
    (latent_dist_params : Option (ℚ × ℚ)) : Except String CgmState :=
  let st : CgmState :=
    ⟨dim_out, dim_in_mean, dim_in_std, dim_in_features, dim_latent, n_samples_train,
      latent_dist, resolve_latent_params latent_dist latent_dist_params⟩
  if model_type = "t2m" then
    if latent_dist_known latent_dist then Except.ok st
    else Except.error "UnboundLocalError: local variable epsilon referenced before assignment"
  else if model_type = "ws" then
    if latent_dist_known latent_dist then Except.ok st
    else Except.error "UnboundLocalError: local variable epsilon referenced before assignment"
  else Except.error "AttributeError: cgm object has no attribute _build_model"

/-- Whether construction succeeded. -/
def construction_ok {ε α : Type} (e : Except ε α) : Bool :=
  match e with
  | Except.ok _ => true
  | Except.error _ => false

/-! ## The "ws" generative network (source: `_build_model_ws`, lines 194-269)

Embedded per example: a batched input is a function of the batch index into
these per-example inputs, and every layer acts independently per example.
Layer weights are explicit parameters.  `layers.Dense(u, activation=a)`
applied to the last axis becomes `dense`; `layers.Flatten()` on an
`(dim_out, k)` input becomes row-major `flatten2`; `Permute((2,1))` followed
by a `Dense` and `Permute((2,1))` back is the per-sample application of
`dense`; `Concatenate(axis=1)` is `concatVec`. -/

/-- Keras `elu` activation (alpha = 1). -/
noncomputable def elu (x : ℝ) : ℝ := if 0 < x then x else Real.exp x - 1

/-- Keras `softplus` activation: `log(exp(x) + 1)`. -/
noncomputable def softplus (x : ℝ) : ℝ := Real.log (Real.exp x + 1)

/-- A dense layer on the last axis: `act (W x + b)` per output unit. -/
noncomputable def dense {m n : ℕ} (W : Fin n → Fin m → ℝ) (bias : Fin n → ℝ)
    (act : ℝ → ℝ) (x : Fin m → ℝ) : Fin n → ℝ :=
  fun j => act ((∑ i, W j i * x i) + bias j)

/-- Row-major `layers.Flatten()` of an `(a, b)` tensor slice. -/
noncomputable def flatten2 {a b : ℕ} (x : Fin a → Fin b → ℝ) : Fin (a * b) → ℝ :=
  fun idx => x
    ⟨idx.val / b, by
      have h := idx.isLt
      rcases Nat.eq_zero_or_pos b with hb | hb
      · subst hb; omega
      · exact (Nat.div_lt_iff_lt_mul hb).mpr h⟩
    ⟨idx.val % b, by
      have h := idx.isLt
      rcases Nat.eq_zero_or_pos b with hb | hb
      · subst hb; omega
      · exact Nat.mod_lt _ hb⟩

/-- Layer `layers.Concatenate(axis=1)` of two slices along the feature axis. -/
noncomputable def concatVec {a b : ℕ} (u : Fin a → ℝ) (v : Fin b → ℝ) :
    Fin (a + b) → ℝ :=
  fun i =>
    if h : i.val < a then u ⟨i.val, h⟩
    else v ⟨i.val - a, by have := i.isLt; omega⟩

/-- All layer weights of `_build_model_ws`, in source order: the mean branch
(3 hidden dense layers of 100 `elu` units and a `dim_out` `elu` output), the
spread branch (3 hidden dense layers of 100 `elu` units and a `dim_latent`
`exponential` output), and the joint mixing branch (two 25-unit `elu` layers
and a linear `dim_out` output applied per sample). -/
structure WsParams (dim_out dim_in_mean dim_in_std dim_in_features dim_latent : ℕ) where
  W1 : Fin 100 → Fin (dim_out * dim_in_mean) → ℝ
  b1 : Fin 100 → ℝ
  W2 : Fin 100 → Fin 100 → ℝ
  b2 : Fin 100 → ℝ
  W3 : Fin 100 → Fin 100 → ℝ
  b3 : Fin 100 → ℝ
  W4 : Fin dim_out → Fin 100 → ℝ
  b4 : Fin dim_out → ℝ
  V1 : Fin 100 → Fin (dim_out * dim_in_std) → ℝ
  c1 : Fin 100 → ℝ
  V2 : Fin 100 → Fin 100 → ℝ
  c2 : Fin 100 → ℝ
  V3 : Fin 100 → Fin 100 → ℝ
  c3 : Fin 100 → ℝ
  V4 : Fin dim_latent → Fin 100 → ℝ
  c4 : Fin dim_latent → ℝ
  M1 : Fin 25 → Fin (dim_out * dim_in_features + dim_latent) → ℝ
  d1 : Fin 25 → ℝ
  M2 : Fin 25 → Fin 25 → ℝ
  d2 : Fin 25 → ℝ
  M3 : Fin dim_out → Fin 25 → ℝ
  d3 : Fin dim_out → ℝ

/-- Builder `_build_model_ws` up to (and including) the `Add` layer `y`, per example:
`epsilon` is the latent draw `(dim_latent, n_samples)` of this forward pass. -/
noncomputable def build_model_ws_pre {dim_out dim_in_mean dim_in_std dim_in_features
    dim_latent n_samples : ℕ}
    (P : WsParams dim_out dim_in_mean dim_in_std dim_in_features dim_latent)
    (input_mean : Fin dim_out → Fin dim_in_mean → ℝ)
    (input_sd : Fin dim_out → Fin dim_in_std → ℝ)
    (input_all : Fin dim_out → Fin dim_in_features → ℝ)
    (epsilon : Fin dim_latent → Fin n_samples → ℝ) :
    Fin dim_out → Fin n_samples → ℝ :=
  let x1 := dense P.W1 P.b1 elu (flatten2 input_mean)
  let x2 := dense P.W2 P.b2 elu x1
  let x3 := dense P.W3 P.b3 elu x2
  let x_mean := dense P.W4 P.b4 elu x3
  let z1 := dense P.V1 P.c1 elu (flatten2 input_sd)
  let z2 := dense P.V2 P.c2 elu z1
  let z3 := dense P.V3 P.c3 elu z2
  let z_delta := dense P.V4 P.c4 Real.exp z3
  let z : Fin dim_latent → Fin n_samples → ℝ := fun j s => z_delta j * epsilon j s
  let w : Fin n_samples → Fin (dim_out * dim_in_features + dim_latent) → ℝ :=
    fun s => concatVec (flatten2 input_all) (fun j => z j s)
  let h1 := fun s => dense P.M1 P.d1 elu (w s)
  let h2 := fun s => dense P.M2 P.d2 elu (h1 s)
  let y_noise := fun s => dense P.M3 P.d3 id (h2 s)
  fun d s => x_mean d + y_noise s d

/-- Builder `_build_model_ws` output: `y_positive = keras.activations.softplus(y)`. -/
noncomputable def build_model_ws {dim_out dim_in_mean dim_in_std dim_in_features
    dim_latent n_samples : ℕ}
    (P : WsParams dim_out dim_in_mean dim_in_std dim_in_features dim_latent)
    (input_mean : Fin dim_out → Fin dim_in_mean → ℝ)
    (input_sd : Fin dim_out → Fin dim_in_std → ℝ)
    (input_all : Fin dim_out → Fin dim_in_features → ℝ)
    (epsilon : Fin dim_latent → Fin n_samples → ℝ) :
    Fin dim_out → Fin n_samples → ℝ :=
  fun d s => softplus (build_model_ws_pre P input_mean input_sd input_all epsilon d s)

lemma softplus_nonneg (x : ℝ) : 0 ≤ softplus x := by
  unfold softplus
  apply Real.log_nonneg
  have := Real.exp_pos x
  linarith

/-! ## Claim C1 -/

/-- C1 counterexample: at `y_true = 0`, both samples `200000` (D=1, N=2), the
true-to-sample radicand is `4e10 > 1e10`, so `energy_score` (which also clips
*above* at `1e10`) differs from the claimed lower-clip-only formula:
`100000 - √ε ≠ 200000 - √ε`. -/
theorem energy_score_ne_spec_lower :
    energy_score (D := 1) ![0] ![![200000, 200000]] ≠
      energy_score_spec_lower (D := 1) ![0] ![![200000, 200000]] := by
  rw [eval_big_code, eval_big_spec]
  intro h
  have h2 : (100000 : ℝ) = 200000 := by linarith
  norm_num at h2

/-- C1 (amended): for every `y_true` of shape `(batch, D, 1)` and `y_pred` of
shape `(batch, D, N)` with `N ≥ 2`, the `b`-th entry of `energy_score` equals
`(1/N) Σᵢ ‖y_true_b - y_pred_b_i‖ - 1/(2N(N-1)) Σᵢ Σⱼ ‖y_pred_b_i - y_pred_b_j‖`
with Euclidean norm over the `D` dimensions, with the radicand of every square
root clipped below to epsilon *and above to `1e10`* before the root is taken. -/
theorem energy_score_eq_spec_clipped {B D N : ℕ} (hN : 2 ≤ N)
    (t : Fin B → Fin D → ℝ) (p : Fin B → Fin D → Fin N → ℝ) (b : Fin B) :
    energy_score_batched B D N t p b = energy_score_spec_clipped (t b) (p b) := by
  unfold energy_score_batched energy_score energy_score_spec_clipped es12 es22 esDenom
  have e1 : (∑ i, sqrtClip (es12rad (t b) (p b) i))
      = ∑ i, sqrtClip (spec_dist_sq (t b) (fun d => p b d i)) :=
    Finset.sum_congr rfl fun i _ => by rw [es12rad_eq]
  have e2 : (∑ i, ∑ j, sqrtClip (es22rad (p b) i j))
      = ∑ i, ∑ j, sqrtClip (spec_dist_sq (fun d => p b d i) (fun d => p b d j)) :=
    Finset.sum_congr rfl fun i _ => Finset.sum_congr rfl fun j _ => by rw [es22rad_eq]
  rw [e1, e2, one_div_mul_eq_div, one_div_mul_eq_div]

/-- C1 witness: the amended equality instantiated at a concrete batch. -/
theorem energy_score_eq_spec_clipped_witness :
    2 ≤ 2 ∧ energy_score_batched 1 1 2 ![![(0 : ℝ)]] ![![![(1 : ℝ), 3]]] 0 =
      energy_score_spec_clipped (![![(0 : ℝ)]] 0) (![![![(1 : ℝ), 3]]] 0) :=
  ⟨le_refl 2, energy_score_eq_spec_clipped (le_refl 2) ![![(0 : ℝ)]] ![![![(1 : ℝ), 3]]] 0⟩

/-! ## Claim C2 -/

lemma getD_take {α : Type} (l : List α) (n k : ℕ) (d : α) (h : k < n) :
    (l.take n).getD k d = l.getD k d := by
  simp [List.getD_eq_getElem?_getD, List.getElem?_take, h]

/-- C2: for every input and every `n_samples ≥ 1`, `predict` performs exactly
`ceil(n_samples / n_samples_train)` forward passes (the pass count
`(n + m - 1) / m` of the definition is the least `Q` with `n ≤ Q * m`), each
producing `n_samples_train` samples; it concatenates them along the sample
axis and truncates to the first `n_samples` samples, so the result has exactly
`n_samples` samples and its `k`-th sample is sample `k % m` of forward pass
`k / m`. -/
theorem predict_ceil_concat_truncate {α : Type} (pass_output : ℕ → List α)
    (n m : ℕ) (hn : 1 ≤ n) (hm : 1 ≤ m) (hlen : ∀ i, (pass_output i).length = m) :
    (n ≤ ((n + m - 1) / m) * m ∧ ∀ Q : ℕ, n ≤ Q * m → (n + m - 1) / m ≤ Q)
    ∧ (cgm_predict pass_output n m).length = n
    ∧ ∀ (d : α) (k : ℕ), k < n →
        (cgm_predict pass_output n m).getD k d
          = (pass_output (k / m)).getD (k % m) d := by
  have hceil1 : n ≤ ((n + m - 1) / m) * m := by
    have hdm := Nat.div_add_mod (n + m - 1) m
    have hmod : (n + m - 1) % m < m := Nat.mod_lt _ hm
    rw [Nat.mul_comm]
    revert hdm hmod
    generalize m * ((n + m - 1) / m) = A
    generalize (n + m - 1) % m = r
    intro hdm hmod
    omega
  have hceil2 : ∀ Q : ℕ, n ≤ Q * m → (n + m - 1) / m ≤ Q := by
    intro Q hQ
    have h1 : (n + m - 1) / m < Q + 1 := by
      apply (Nat.div_lt_iff_lt_mul hm).mpr
      have e : (Q + 1) * m = Q * m + m := by ring
      rw [e]
      revert hQ
      generalize Q * m = A
      intro hQ
      omega
    exact Nat.lt_succ_iff.mp h1
  have hlens : ∀ l ∈ (List.range ((n + m - 1) / m)).map pass_output, l.length = m := by
    intro l hl
    rcases List.mem_map.mp hl with ⟨i, _, rfl⟩
    exact hlen i
  have hflatlen : ((List.range ((n + m - 1) / m)).map pass_output).flatten.length
      = ((n + m - 1) / m) * m := by
    rw [flatten_length_const m _ hlens, List.length_map, List.length_range]
  refine ⟨⟨hceil1, hceil2⟩, ?_, ?_⟩
  · unfold cgm_predict
    rw [List.length_take, hflatlen]
    exact min_eq_left hceil1
  · intro d k hk
    have hP : k < ((List.range ((n + m - 1) / m)).map pass_output).length * m := by
      rw [List.length_map, List.length_range]
      exact lt_of_lt_of_le hk hceil1
    have hflat := flatten_getD_const m hm d _ hlens k hP
    have hdiv : k / m < (n + m - 1) / m := by
      apply (Nat.div_lt_iff_lt_mul hm).mpr
      exact lt_of_lt_of_le hk hceil1
    rw [range_map_getD _ _ _ hdiv] at hflat
    unfold cgm_predict
    rw [getD_take _ _ _ _ hk, hflat]

/-- C2 witness: `n_samples = 7`, `n_samples_train = 5` gives two forward
passes and exactly 7 returned samples. -/
theorem predict_ceil_concat_truncate_witness :
    (1 ≤ 7 ∧ 1 ≤ 5 ∧ ∀ i : ℕ, (List.replicate 5 i).length = 5)
    ∧ ((7 ≤ ((7 + 5 - 1) / 5) * 5 ∧ ∀ Q : ℕ, 7 ≤ Q * 5 → (7 + 5 - 1) / 5 ≤ Q)
      ∧ (cgm_predict (fun i => List.replicate 5 i) 7 5).length = 7
      ∧ ∀ (d k : ℕ), k < 7 →
          (cgm_predict (fun i => List.replicate 5 i) 7 5).getD k d
            = (List.replicate 5 (k / 5)).getD (k % 5) d) :=
  ⟨⟨by norm_num, by norm_num, fun i => List.length_replicate 5 i⟩,
    predict_ceil_concat_truncate (fun i => List.replicate 5 i) 7 5 (by norm_num)
      (by norm_num) (fun i => List.length_replicate 5 i)⟩

/-! ## Claim C3 -/

/-- C3: constructing a `cgm` with a `model_type` outside `{"t2m", "ws"}`, or a
`latent_dist` outside `{"uniform", "normal"}`, raises during construction
(the missing `else` branches leave `_build_model` resp. `epsilon` unassigned,
so `__init__` raises `AttributeError` resp. `UnboundLocalError`): construction
never silently succeeds with an invalid configuration. -/
theorem cgm_init_invalid_config_errors (a1 a2 a3 a4 a5 a6 : ℕ) (mt ld : String)
    (ps : Option (ℚ × ℚ))
    (h : (mt ≠ "t2m" ∧ mt ≠ "ws") ∨ (ld ≠ "uniform" ∧ ld ≠ "normal")) :
    construction_ok (cgm_init a1 a2 a3 a4 a5 a6 mt ld ps) = false := by
  rcases h with ⟨h1, h2⟩ | ⟨h1, h2⟩
  · simp [cgm_init, construction_ok, h1, h2]
  · have hl : latent_dist_known ld = false := by
      simp [latent_dist_known, h1, h2]
    by_cases hmt : mt = "t2m"
    · simp [cgm_init, construction_ok, hmt, hl]
    · by_cases hmt2 : mt = "ws"
      · simp [cgm_init, construction_ok, hmt, hmt2, hl]
      · simp [cgm_init, construction_ok, hmt, hmt2]

/-- C3 witness: `model_type = "invalid"` is rejected at construction. -/
theorem cgm_init_invalid_config_errors_witness :
    ((("invalid" : String) ≠ "t2m" ∧ ("invalid" : String) ≠ "ws")
        ∨ (("uniform" : String) ≠ "uniform" ∧ ("uniform" : String) ≠ "normal"))
    ∧ construction_ok (cgm_init 1 1 1 1 1 2 "invalid" "uniform" none) = false :=
  ⟨Or.inl ⟨by decide, by decide⟩,
    cgm_init_invalid_config_errors 1 1 1 1 1 2 "invalid" "uniform" none
      (Or.inl ⟨by decide, by decide⟩)⟩

/-! ## Claim C4 -/

/-- C4 counterexample: constructing with `n_samples_train = 1` does *not*
raise — the constructor performs no validation of `n_samples_train` and
returns a fully built model. -/
theorem cgm_init_accepts_n_samples_one :
    construction_ok (cgm_init 1 1 1 1 1 1 "t2m" "uniform" none) = true := by decide

/-- C4 (amended): construction with `n_samples_train = 1` succeeds (storing
`n_samples_train = 1` and the default uniform parameters `(-1, 1)`); the
division by zero is not prevented: the energy score's second-term denominator
`2·N·(N-1)` is `0` at `N = 1`, so it would surface during training, not at
construction. -/
theorem cgm_init_n1_accepted_denom_zero :
    cgm_init 1 1 1 1 1 1 "t2m" "uniform" none
      = Except.ok ⟨1, 1, 1, 1, 1, 1, "uniform", some (-1, 1)⟩
    ∧ esDenom ((1 : ℕ) : ℝ) = 0 :=
  ⟨by rfl, by norm_num [esDenom]⟩

/-! ## Claim C5 -/

/-- C5: for every input to the "ws" variant network (any real-valued
mean-features, spread-features, auxiliary-features, any weights and any
latent draw), every entry of the output `(D, n_samples)` slice is
non-negative: the final output passes through softplus. -/
theorem ws_output_nonneg {dim_out dim_in_mean dim_in_std dim_in_features
    dim_latent n_samples : ℕ}
    (P : WsParams dim_out dim_in_mean dim_in_std dim_in_features dim_latent)
    (input_mean : Fin dim_out → Fin dim_in_mean → ℝ)
    (input_sd : Fin dim_out → Fin dim_in_std → ℝ)
    (input_all : Fin dim_out → Fin dim_in_features → ℝ)
    (epsilon : Fin dim_latent → Fin n_samples → ℝ)
    (d : Fin dim_out) (s : Fin n_samples) :
    0 ≤ build_model_ws P input_mean input_sd input_all epsilon d s :=
  softplus_nonneg (build_model_ws_pre P input_mean input_sd input_all epsilon d s)

/-! ## Claim C6 -/

/-- C6 counterexample: at `y_true = 2`, samples `(1, 3)` (D=1, N=2) — all
entries finite — the returned score is `-√ε/2 < 0`: the epsilon clamp on the
pairwise diagonal pushes the score below zero when the unclipped score is 0. -/
theorem energy_score_negative_example :
    energy_score (D := 1) ![2] ![![1, 3]] < 0 := by
  rw [eval_two13]
  have h := sqrt_kEpsilon_pos
  linarith

/-- C6 (amended): for every finite `y_true` `(batch, D, 1)` and `y_pred`
`(batch, D, N)` with `N ≥ 2`, every entry of `energy_score` is at least
`-√ε / (2(N-1))`: non-negativity holds up to the epsilon-clamp artifact on
the pairwise diagonal (and the bound is attained by the counterexample). -/
theorem energy_score_lower_bound {D N : ℕ} (hN : 2 ≤ N) (t : Fin D → ℝ)
    (p : Fin D → Fin N → ℝ) :
    -(Real.sqrt kEpsilon) / (2 * ((N : ℝ) - 1)) ≤ energy_score t p := by
  have hkey := es22_le t p
  have hN' : (2 : ℝ) ≤ (N : ℝ) := by exact_mod_cast hN
  have hn0 : (0 : ℝ) < (N : ℝ) := by linarith
  have hn1 : (0 : ℝ) < (N : ℝ) - 1 := by linarith
  have hd : (0 : ℝ) < esDenom (N : ℝ) := by
    unfold esDenom
    nlinarith
  have hne1 : (N : ℝ) ≠ 0 := ne_of_gt hn0
  have hne2 : (N : ℝ) - 1 ≠ 0 := ne_of_gt hn1
  unfold energy_score
  have h2 : es22 p / esDenom (N : ℝ)
      ≤ ((N : ℝ) * Real.sqrt kEpsilon + 2 * ((N : ℝ) - 1) * es12 t p)
          / esDenom (N : ℝ) :=
    (div_le_div_iff_of_pos_right hd).mpr hkey
  have h3 : es12 t p / (N : ℝ)
      - ((N : ℝ) * Real.sqrt kEpsilon + 2 * ((N : ℝ) - 1) * es12 t p)
          / esDenom (N : ℝ)
      = -(Real.sqrt kEpsilon) / (2 * ((N : ℝ) - 1)) := by
    unfold esDenom
    field_simp
    ring
  linarith

/-- C6 witness: the lower bound instantiated at N = 2. -/
theorem energy_score_lower_bound_witness :
    2 ≤ 2 ∧ -(Real.sqrt kEpsilon) / (2 * (((2 : ℕ) : ℝ) - 1))
      ≤ energy_score (D := 1) ![0] ![![0, 0]] :=
  ⟨le_refl 2, energy_score_lower_bound (le_refl 2) ![0] ![![0, 0]]⟩

/-! ## Claim C7 -/

/-- C7: for every `y_true`, every `y_pred` with `N ≥ 2` samples, and every
permutation `π` of the sample axis, permuting `y_pred` along axis 2 leaves
`energy_score` unchanged. -/
theorem energy_score_perm_invariant {D N : ℕ} (hN : 2 ≤ N) (t : Fin D → ℝ)
    (p : Fin D → Fin N → ℝ) (π : Equiv.Perm (Fin N)) :
    energy_score t (fun d i => p d (π i)) = energy_score t p := by
  have h1 : es12 t (fun d i => p d (π i)) = es12 t p := by
    unfold es12
    calc (∑ i, sqrtClip (es12rad t (fun d i => p d (π i)) i))
        = ∑ i, sqrtClip (es12rad t p (π i)) := rfl
      _ = ∑ i, sqrtClip (es12rad t p i) :=
          Equiv.sum_comp π fun i => sqrtClip (es12rad t p i)
  have h2 : es22 (fun d i => p d (π i)) = es22 p := by
    unfold es22
    calc (∑ i, ∑ j, sqrtClip (es22rad (fun d i => p d (π i)) i j))
        = ∑ i, ∑ j, sqrtClip (es22rad p (π i) (π j)) := rfl
      _ = ∑ i, ∑ j, sqrtClip (es22rad p (π i) j) :=
          Finset.sum_congr rfl fun i _ =>
            Equiv.sum_comp π fun j => sqrtClip (es22rad p (π i) j)
      _ = ∑ i, ∑ j, sqrtClip (es22rad p i j) :=
          Equiv.sum_comp π fun i => ∑ j, sqrtClip (es22rad p i j)
  unfold energy_score
  rw [h1, h2]

/-- C7 witness: the invariance instantiated at a concrete input with the
identity permutation. -/
theorem energy_score_perm_invariant_witness :
    2 ≤ 2 ∧ energy_score (D := 1) ![0]
        (fun d i => (![![1, 3]] : Fin 1 → Fin 2 → ℝ) d ((Equiv.refl (Fin 2)) i))
      = energy_score (D := 1) ![0] ![![1, 3]] :=
  ⟨le_refl 2,
    energy_score_perm_invariant (le_refl 2) ![0] ![![1, 3]] (Equiv.refl (Fin 2))⟩

/-! ## Claim C8 -/

/-- C8 counterexample: D=1, N=3, `y_true = 0`, every sample equal to `y_true`:
the score is `√ε/4 ≠ 0` — the epsilon clamp keeps the all-equal score away
from zero whenever `N > 2`. -/
theorem energy_score_all_equal_ne_zero :
    energy_score (D := 1) ![0] (fun d (_ : Fin 3) => ![(0 : ℝ)] d) ≠ 0 := by
  rw [energy_score_all_equal_aux (by norm_num) ![(0 : ℝ)]]
  have h := sqrt_kEpsilon_pos
  intro heq
  push_cast at heq
  norm_num at heq
  linarith

/-- C8 (amended): if every one of the `N ≥ 2` predictive samples equals
`y_true`, then `energy_score` returns exactly `√ε·(N-2)/(2(N-1))` — zero for
`N = 2` and a positive value of order `√ε` for `N > 2`; both terms vanish only
modulo the epsilon clamp, which contributes `√ε` per sum term. -/
theorem energy_score_all_equal_clamp {D N : ℕ} (hN : 2 ≤ N) (t : Fin D → ℝ) :
    energy_score t (fun d (_ : Fin N) => t d) =
      Real.sqrt kEpsilon * ((N : ℝ) - 2) / (2 * ((N : ℝ) - 1)) :=
  energy_score_all_equal_aux hN t

/-- C8 witness: at N = 2 the all-equal score is exactly zero. -/
theorem energy_score_all_equal_clamp_witness :
    2 ≤ 2 ∧ energy_score ![(5 : ℝ)] (fun d (_ : Fin 2) => ![(5 : ℝ)] d) =
      Real.sqrt kEpsilon * (((2 : ℕ) : ℝ) - 2) / (2 * (((2 : ℕ) : ℝ) - 1)) :=
  ⟨le_refl 2, energy_score_all_equal_clamp (le_refl 2) ![(5 : ℝ)]⟩

/-! ## Claim C9 -/

/-- C9 counterexample: at D=1, `t=0`, samples `(1,3)` the code returns
`1 - √ε/2`, not exactly `1`: the pairwise diagonal contributes the clamped
`2√ε` to `es_22`. -/
theorem energy_score_n2_example_ne_one :
    energy_score (D := 1) ![0] ![![1, 3]] ≠ 1 := by
  rw [eval_zero13]
  have h := sqrt_kEpsilon_pos
  intro heq
  linarith

/-- C9 (amended): for N = 2 samples `a = p·0`, `b = p·1` and true value `t`,
`energy_score` returns `(s‖t-a‖ + s‖t-b‖)/2 - s‖a-b‖/2 - √ε/2` where `s` is
the square root with radicand clipped to `[ε, 1e10]`; in particular for D=1,
`t=0`, `a=1`, `b=3` it returns exactly `1 - √ε/2` (≈ 0.99984, not 1). -/
theorem energy_score_two_samples :
    (∀ (D : ℕ) (t : Fin D → ℝ) (p : Fin D → Fin 2 → ℝ),
      energy_score t p =
        (sqrtClip (spec_dist_sq t (fun d => p d 0))
          + sqrtClip (spec_dist_sq t (fun d => p d 1))) / 2
        - sqrtClip (spec_dist_sq (fun d => p d 0) (fun d => p d 1)) / 2
        - Real.sqrt kEpsilon / 2)
    ∧ energy_score (D := 1) ![0] ![![1, 3]] = 1 - Real.sqrt kEpsilon / 2 :=
  ⟨fun _ t p => energy_score_two t p, eval_zero13⟩

/-! ## Claim C10 -/

/-- C10 counterexample: at `y_true = 1e5`, samples `(0, 2e5)` (D=1, N=2) the
sample-to-sample squared distance is `4e10 > 1e10`, yet the returned score
(`5e4 - √ε/2`) is strictly *greater* than the unclipped formula's value (`0`),
refuting "the returned score is strictly less than the unclipped formula
prescribes". -/
theorem clip_upper_not_less :
    energy_score_unclipped (D := 1) ![100000] ![![0, 200000]] <
      energy_score (D := 1) ![100000] ![![0, 200000]] := by
  rw [eval_mid_code, eval_mid_unclipped]
  have h := sqrt_kEpsilon_lt_one
  have h2 := sqrt_kEpsilon_pos
  linarith

/-- C10 (amended): `energy_score` clips every squared-distance radicand from
above at `1e10` (in addition to the epsilon lower clip), so each individual
clipped Euclidean distance contributes at most `1e5 = √(1e10)` to either sum;
but the clipping does not uniformly lower the score: when a sample-to-sample
squared distance exceeds `1e10` the subtracted pairwise term shrinks, and the
returned score can be strictly greater than the unclipped formula prescribes
(as at `y_true = 1e5`, samples `(0, 2e5)`). -/
theorem clip_upper_bound_and_direction :
    (∀ x : ℝ, sqrtClip x ≤ 100000)
    ∧ energy_score_unclipped (D := 1) ![100000] ![![0, 200000]] <
        energy_score (D := 1) ![100000] ![![0, 200000]] := by
  constructor
  · intro x
    have h := sqrtClip_le_sqrt_clipHi x
    rw [sqrt_clipHi_eq] at h
    exact h
  · rw [eval_mid_code, eval_mid_unclipped]
    have h := sqrt_kEpsilon_lt_one
    have h2 := sqrt_kEpsilon_pos
    linarith
